import Mathlib

/-!
Verification model of `src/static/docs.js` from the email-validation-api
repository.  The script wires up five independent UI behaviours at page
load: an API tester form, smooth-scroll navigation with active-link
highlighting, copy-to-clipboard buttons on code blocks, tooltip
initialization and a client-side search filter.  Each event handler is a
pure function of the DOM state it touches, so we embed each one as a Lean
function over an explicit state type and prove the specified properties.
-/

namespace Docs

/-! ## JSON values and `JSON.stringify(v, null, 2)`

The handler renders fetch results with `JSON.stringify(result, null, 2)`.
We model JSON values with integer numbers (the claims under verification
do not depend on float formatting) and implement the two-space
pretty-printer following the ECMAScript `JSON.stringify` algorithm. -/

inductive Json where
  | null : Json
  | bool : Bool → Json
  | num : Int → Json
  | str : String → Json
  | arr : List Json → Json
  | obj : List (String × Json) → Json

/-- Lower-case hex digit, as produced by `JSON.stringify` escapes. -/
def hexDigit (n : Nat) : Char :=
  if n < 10 then Char.ofNat (48 + n) else Char.ofNat (87 + n)

/-- Two hex digits for a code point below 0x100. -/
def hex2 (n : Nat) : String :=
  String.mk [hexDigit (n / 16), hexDigit (n % 16)]

/-- Escape one character inside a JSON string literal (ECMAScript QuoteJSONString). -/
def jsonEscapeChar (c : Char) : String :=
  if c = '"' then "\\\""
  else if c = '\\' then "\\\\"
  else if c = '\n' then "\\n"
  else if c = '\r' then "\\r"
  else if c = '\t' then "\\t"
  else if c = Char.ofNat 8 then "\\b"
  else if c = Char.ofNat 12 then "\\f"
  else if c.toNat < 32 then "\\u00" ++ hex2 c.toNat
  else String.singleton c

/-- Quote a string as a JSON string literal. -/
def jsonQuote (s : String) : String :=
  "\"" ++ String.join (s.data.map jsonEscapeChar) ++ "\""

/-- `n` space characters, the indentation produced by a gap of 2. -/
def spaces (n : Nat) : String :=
  String.mk (List.replicate n ' ')

mutual

/-- `JSON.stringify(v, null, 2)` at current indentation `ind`. -/
def stringifyVal (ind : Nat) : Json → String
  | .null => "null"
  | .bool b => if b then "true" else "false"
  | .num n => toString n
  | .str s => jsonQuote s
  | .arr [] => "[]"
  | .arr (x :: xs) =>
      "[\n" ++ String.intercalate ",\n" (stringifyArr (ind + 2) (x :: xs))
        ++ "\n" ++ spaces ind ++ "]"
  | .obj [] => "\x7b\x7d"
  | .obj (f :: fs) =>
      "\x7b\n" ++ String.intercalate ",\n" (stringifyObj (ind + 2) (f :: fs))
        ++ "\n" ++ spaces ind ++ "\x7d"

/-- Serialized array items, each on its own indented line. -/
def stringifyArr (ind : Nat) : List Json → List String
  | [] => []
  | x :: xs => (spaces ind ++ stringifyVal ind x) :: stringifyArr ind xs

/-- Serialized object entries, each on its own indented line. -/
def stringifyObj (ind : Nat) : List (String × Json) → List String
  | [] => []
  | (k, v) :: fs =>
      (spaces ind ++ jsonQuote k ++ ": " ++ stringifyVal ind v) :: stringifyObj ind fs

end

/-- `JSON.stringify(v, null, 2)`. -/
def stringify (j : Json) : String := stringifyVal 0 j

/-! ## API tester form (`apiTestForm` submit handler)

State touched by the handler: the `#api-test-output` element's text and
class name, and the `#api-test-result` element's display style. -/

structure DocsState where
  outputText : String
  outputCls : String
  resultDisplay : String
  deriving Repr, DecidableEq

/-- How the `fetch` + `response.json()` pair settles, seen from the handler:
the response resolved and its body parsed as JSON (carrying the HTTP status
and the parsed value), or `response.json()` rejected, or `fetch` itself
rejected.  The carried message is `error.message`. -/
inductive FetchOutcome where
  | ok : Nat → Json → FetchOutcome
  | jsonError : String → FetchOutcome
  | networkError : String → FetchOutcome

/-- `Response.ok` per the Fetch specification: status in the range 200-299. -/
def respOk (status : Nat) : Bool := 200 ≤ status && status ≤ 299

/-- Class set on the output element on the success branch. -/
def successCls : String := "bg-dark p-3 rounded border border-success"

/-- Class set on the output element on the error branches. -/
def dangerCls : String := "bg-dark p-3 rounded border border-danger"

/-- Result of one run of the submit handler: whether the blocking
`alert` fired, whether a network request was issued, and the final DOM
state. -/
structure SubmitOutcome where
  alerted : Bool
  requested : Bool
  state : DocsState
  deriving Repr, DecidableEq

/-- The `apiTestForm` submit handler (docs.js lines 8-51).  Reads the two
input values; if either is empty (JS falsiness of a string) it alerts and
returns without fetching.  Otherwise it shows the loading placeholder,
fetches, and renders the settled outcome. -/
def submitHandler (apiKey email : String) (st : DocsState)
    (net : FetchOutcome) : SubmitOutcome :=
  if apiKey = "" ∨ email = "" then
    { alerted := true, requested := false, state := st }
  else
    let loading : DocsState :=
      { st with outputText := "Testing API...", resultDisplay := "block" }
    match net with
    | .ok status body =>
        { alerted := false, requested := true,
          state := { loading with
            outputText := stringify body,
            outputCls := if respOk status then successCls else dangerCls } }
    | .jsonError msg =>
        { alerted := false, requested := true,
          state := { loading with
            outputText :=
              stringify (.obj [("error", .str ("Request failed: " ++ msg))]),
            outputCls := dangerCls } }
    | .networkError msg =>
        { alerted := false, requested := true,
          state := { loading with
            outputText :=
              stringify (.obj [("error", .str ("Request failed: " ++ msg))]),
            outputCls := dangerCls } }

/-! ## Section navigator

A page element, as far as the navigator is concerned: its `id` attribute
(`""` when absent — `getElementById` never matches the empty string), its
`href` attribute when present, whether it carries the
`list-group-item-action` class (the selector used for navigation items),
and whether it currently carries the `active` class. -/

structure Elem where
  id : String
  href : Option String
  isNavItem : Bool
  active : Bool
  deriving Repr, DecidableEq

/-- A `section[id]` element together with its `getBoundingClientRect().top`
(modelled as an integer number of pixels). -/
structure Sect where
  id : String
  top : Int
  deriving Repr, DecidableEq

/-- `item.classList.remove('active')` applied to every navigation item,
leaving other elements untouched. -/
def clearIfNav (e : Elem) : Elem :=
  if e.isNavItem then { e with active := false } else e

/-- `activeLink.classList.add('active')`: set `active` on the element at
index `i`. -/
def setActiveAt : List Elem → Nat → List Elem
  | [], _ => []
  | e :: rest, 0 => { e with active := true } :: rest
  | e :: rest, n + 1 => e :: setActiveAt rest n

/-- `updateActiveNavLink(activeLink)` (docs.js lines 80-86): remove
`active` from every `.list-group-item-action` element, then add `active`
to the clicked element (the one at index `i`). -/
def updateActiveNavLink (doc : List Elem) (i : Nat) : List Elem :=
  setActiveAt (doc.map clearIfNav) i

/-- The click handler attached to each `a[href^="#"]` link (docs.js lines
56-73), run for a click on the element at index `i`: resolve the href
fragment with `getElementById`; when an element with that id exists,
scroll to it and call `updateActiveNavLink`; otherwise do nothing. -/
def clickHandler (doc : List Elem) (i : Nat) : List Elem :=
  match doc.get? i with
  | none => doc
  | some e =>
    match e.href with
    | none => doc
    | some h =>
      let targetId := h.drop 1
      if targetId ≠ "" ∧ doc.any (fun el => el.id == targetId) then
        updateActiveNavLink doc i
      else doc

/-- The scan in `updateActiveNavOnScroll` (docs.js lines 93-99): `current`
starts as `''` and is overwritten by the id of every section whose top is
at most 100. -/
def currentSection (sections : List Sect) : String :=
  sections.foldl (fun cur s => if s.top ≤ 100 then s.id else cur) ""

/-- The per-link body of the scroll handler loop: remove `active`, then
re-add it exactly when the `href` attribute equals `'#' + current`. -/
def scrollUpdate (cur : String) (e : Elem) : Elem :=
  if e.isNavItem then { e with active := e.href == some ("#" ++ cur) } else e

/-- `updateActiveNavOnScroll` (docs.js lines 88-107): compute the current
section, then rewrite the `active` class on every
`.list-group-item-action` element. -/
def updateActiveNavOnScroll (doc : List Elem) (sections : List Sect) : List Elem :=
  doc.map (scrollUpdate (currentSection sections))

/-- Number of navigation items (`.list-group-item-action` elements)
currently carrying the `active` class. -/
def countActiveNav (doc : List Elem) : Nat :=
  (doc.filter (fun e => e.isNavItem && e.active)).length

/-- Whether an element is an in-page anchor link, i.e. matches the
selector `a[href^="#"]`. -/
def isAnchor (e : Elem) : Bool :=
  match e.href with
  | some h => (match h.data with | '#' :: _ => true | _ => false)
  | none => false

/-- Number of in-page anchor links (`a[href^="#"]`) currently carrying the
`active` class. -/
def countActiveLinks (doc : List Elem) : Nat :=
  (doc.filter (fun e => isAnchor e && e.active)).length

/-- Number of navigation items whose `href` attribute equals `h`. -/
def countNavWithHref (doc : List Elem) (h : String) : Nat :=
  (doc.filter (fun e => e.isNavItem && e.href == some h)).length

/-- The qualifying section appearing latest in document order: stated from
the spec wording of the scroll contract, to be compared with
`currentSection`. -/
def latestQualifying (sections : List Sect) : Option Sect :=
  sections.reverse.find? (fun s => s.top ≤ 100)

/-! ## Client-side email validation

`isValidEmail` tests its argument against the regular expression
`^[^\s@]+@[^\s@]+\.[^\s@]+$` (docs.js lines 175-177).  We compile that
pattern into a backtracking matcher over the character list: `plusThen cls k`
is `cls+` followed by a continuation `k`, and the literal characters `@`
and `.` are matched directly. -/

/-- The ECMAScript `\s` character class (WhiteSpace plus LineTerminator). -/
def isJsSpace (c : Char) : Bool :=
  c = ' ' || c = '\t' || c = '\n' || c = '\r' ||
  c = Char.ofNat 11 || c = Char.ofNat 12 ||
  c = Char.ofNat 0xa0 || c = Char.ofNat 0x1680 ||
  (0x2000 ≤ c.toNat && c.toNat ≤ 0x200a) ||
  c = Char.ofNat 0x2028 || c = Char.ofNat 0x2029 ||
  c = Char.ofNat 0x202f || c = Char.ofNat 0x205f ||
  c = Char.ofNat 0x3000 || c = Char.ofNat 0xfeff

/-- The character class `[^\s@]` of the email pattern. -/
def emailChar (c : Char) : Bool := !(isJsSpace c || c = '@')

/-- Backtracking matcher for `cls+` followed by whatever `k` accepts:
consume one `cls` character, then either hand the rest to `k` or keep
consuming. -/
def plusThen (cls : Char → Bool) (k : List Char → Bool) : List Char → Bool
  | [] => false
  | c :: cs => cls c && (k cs || plusThen cls k cs)

/-- The suffix pattern `[^\s@]+$`. -/
def matchTail2 : List Char → Bool :=
  plusThen emailChar List.isEmpty

/-- The suffix pattern `\.[^\s@]+$`. -/
def matchDotTail : List Char → Bool
  | c :: r => c == '.' && matchTail2 r
  | [] => false

/-- The suffix pattern `[^\s@]+\.[^\s@]+$` (the domain part). -/
def matchDomain : List Char → Bool :=
  plusThen emailChar matchDotTail

/-- The suffix pattern `@[^\s@]+\.[^\s@]+$`. -/
def matchAtDomain : List Char → Bool
  | c :: r => c == '@' && matchDomain r
  | [] => false

/-- `isValidEmail(email)` (docs.js lines 175-177): test against
`^[^\s@]+@[^\s@]+\.[^\s@]+$`. -/
def isValidEmail (s : String) : Bool :=
  plusThen emailChar matchAtDomain s.data

/-- The acceptance condition exactly as the claim words it: the string is
`local-part@domain` where the domain contains at least one dot, with no
whitespace or extra `@` anywhere.  Stated from the spec, to be compared
with `isValidEmail`. -/
def specEmailPred (s : String) : Prop :=
  ∃ l d : List Char, s.data = l ++ '@' :: d ∧ l ≠ [] ∧ d ≠ [] ∧
    (∀ c ∈ l, emailChar c = true) ∧ (∀ c ∈ d, emailChar c = true) ∧ '.' ∈ d

/-! ## Documentation search -/

/-- A `.documentation-content section` element: its text content and its
display style. -/
structure DocSection where
  text : String
  display : String
  deriving Repr, DecidableEq

/-- ASCII-level model of `String.prototype.toLowerCase`. -/
def strLower (s : String) : String :=
  String.mk (s.data.map Char.toLower)

/-- Scan for `needle` as a contiguous run inside `hay`. -/
def listIncludes (needle : List Char) : List Char → Bool
  | [] => needle.isEmpty
  | c :: cs => needle.isPrefixOf (c :: cs) || listIncludes needle cs

/-- `hay.includes(needle)`: substring containment. -/
def strIncludes (hay needle : String) : Bool :=
  listIncludes needle.data hay.data

/-- The `doc-search` input handler (docs.js lines 151-163): lower-case the
term; a section is displayed as `block` when its lower-cased text contains
the term or the term is empty, and as `none` otherwise. -/
def searchHandler (term : String) (secs : List DocSection) : List DocSection :=
  let searchTerm := strLower term
  secs.map (fun s =>
    if strIncludes (strLower s.text) searchTerm || searchTerm == "" then
      { s with display := "block" }
    else
      { s with display := "none" })

/-! ## Copy-to-clipboard button -/

/-- The copy control's mutable state: its `innerHTML` and its class list. -/
structure BtnState where
  innerHTML : String
  classes : List String
  deriving Repr, DecidableEq

/-- The icon installed at initialization (docs.js line 117). -/
def copyIcon : String := "<i class=\"fas fa-copy\"></i>"

/-- The confirmation icon shown after a successful clipboard write. -/
def checkIcon : String := "<i class=\"fas fa-check text-success\"></i>"

/-- The class swapped out on success. -/
def secondaryBtnCls : String := "btn-outline-secondary"

/-- The class swapped in on success. -/
def successBtnCls : String := "btn-outline-success"

/-- `classList.remove(c)`. -/
def classRemove (cs : List String) (c : String) : List String :=
  cs.filter (fun x => x ≠ c)

/-- `classList.add(c)`: appends `c` unless already present. -/
def classAdd (cs : List String) (c : String) : List String :=
  if c ∈ cs then cs else cs ++ [c]

/-- A callback scheduled by `setTimeout`: its delay in milliseconds and
the state transformation it applies when it fires. -/
structure Scheduled where
  delay : Nat
  run : BtnState → BtnState

/-- The clipboard-write success continuation of the copy button click
handler (docs.js lines 124-135): capture the original `innerHTML`, switch
to the confirmation icon and success class immediately, and schedule the
reverting callback 2000 milliseconds later. -/
def copyClickSuccess (b : BtnState) : BtnState × Scheduled :=
  let originalHTML := b.innerHTML
  ({ innerHTML := checkIcon,
     classes := classAdd (classRemove b.classes secondaryBtnCls) successBtnCls },
   { delay := 2000,
     run := fun bb =>
       { innerHTML := originalHTML,
         classes := classAdd (classRemove bb.classes successBtnCls) secondaryBtnCls } })

/-- The button state `t` milliseconds after the successful write: the
immediate state until the scheduled callback fires, and the callback's
result from its delay onwards. -/
def stateAt (p : BtnState × Scheduled) (t : Nat) : BtnState :=
  if t < p.2.delay then p.1 else p.2.run p.1

/-! ## Claims about the API tester -/

/-- C1: for every (apiKey, email) pair read from the form at submit time
where either string is empty, the submit handler shows a blocking alert
and returns without issuing any network request. -/
theorem submit_empty_alerts_no_request (apiKey email : String) (st : DocsState)
    (net : FetchOutcome) (h : apiKey = "" ∨ email = "") :
    (submitHandler apiKey email st net).alerted = true ∧
    (submitHandler apiKey email st net).requested = false := by
  simp [submitHandler, h]

/-- Witness for C1 at the concrete pair `("", "x@y.co")`. -/
theorem submit_empty_alerts_no_request_witness :
    ("" = "" ∨ "x@y.co" = "") ∧
    ((submitHandler "" "x@y.co" ⟨"", "", "none"⟩ (.ok 200 .null)).alerted = true ∧
     (submitHandler "" "x@y.co" ⟨"", "", "none"⟩ (.ok 200 .null)).requested = false) :=
  ⟨Or.inl rfl,
   submit_empty_alerts_no_request "" "x@y.co" ⟨"", "", "none"⟩ (.ok 200 .null)
     (Or.inl rfl)⟩

/-- C10: when the submit handler aborts because the key or email is empty,
the result display region is left entirely unchanged: output text, class
list and visibility are exactly as before, so in particular no loading
placeholder is shown. -/
theorem submit_empty_state_unchanged (apiKey email : String) (st : DocsState)
    (net : FetchOutcome) (h : apiKey = "" ∨ email = "") :
    (submitHandler apiKey email st net).state = st := by
  simp [submitHandler, h]

/-- Witness for C10 at the concrete pair `("k", "")` and a visible state. -/
theorem submit_empty_state_unchanged_witness :
    ("k" = "" ∨ "" = "") ∧
    (submitHandler "k" "" ⟨"old", "cls", "block"⟩ (.networkError "boom")).state =
      ⟨"old", "cls", "block"⟩ :=
  ⟨Or.inr rfl,
   submit_empty_state_unchanged "k" "" ⟨"old", "cls", "block"⟩ (.networkError "boom")
     (Or.inr rfl)⟩

/-- C6: for every response whose body parses as JSON, the output text is
the pretty-printed JSON of the body, and the output is styled as success
exactly when the HTTP status lies in [200, 299] and as error otherwise,
independent of the body. -/
theorem submit_ok_renders_status_style (apiKey email : String) (st : DocsState)
    (status : Nat) (body : Json) (hk : apiKey ≠ "") (he : email ≠ "") :
    (submitHandler apiKey email st (.ok status body)).state.outputText =
      stringify body ∧
    ((submitHandler apiKey email st (.ok status body)).state.outputCls = successCls ↔
      (200 ≤ status ∧ status ≤ 299)) ∧
    ((submitHandler apiKey email st (.ok status body)).state.outputCls = dangerCls ↔
      ¬(200 ≤ status ∧ status ≤ 299)) := by
  have hcond : ¬(apiKey = "" ∨ email = "") := by
    rintro (h | h) <;> [exact hk h; exact he h]
  have hne : successCls ≠ dangerCls := by decide
  have hok : respOk status = true ↔ (200 ≤ status ∧ status ≤ 299) := by
    simp [respOk]
  by_cases hs : 200 ≤ status ∧ status ≤ 299
  · simp [submitHandler, hcond, hok.mpr hs, hs, hne]
  · have : respOk status = false := by
      cases h : respOk status
      · rfl
      · exact absurd (hok.mp h) hs
    simp [submitHandler, hcond, this, hs, hne.symm]

/-- Witness for C6 at a concrete call with status 404. -/
theorem submit_ok_renders_status_style_witness :
    ("k" ≠ "" ∧ "a@b.co" ≠ "") ∧
    ((submitHandler "k" "a@b.co" ⟨"", "", "none"⟩
        (.ok 404 (.obj [("valid", .bool false)]))).state.outputText =
      stringify (.obj [("valid", .bool false)]) ∧
    ((submitHandler "k" "a@b.co" ⟨"", "", "none"⟩
        (.ok 404 (.obj [("valid", .bool false)]))).state.outputCls = successCls ↔
      (200 ≤ 404 ∧ 404 ≤ 299)) ∧
    ((submitHandler "k" "a@b.co" ⟨"", "", "none"⟩
        (.ok 404 (.obj [("valid", .bool false)]))).state.outputCls = dangerCls ↔
      ¬(200 ≤ 404 ∧ 404 ≤ 299))) :=
  ⟨⟨by decide, by decide⟩,
   submit_ok_renders_status_style "k" "a@b.co" ⟨"", "", "none"⟩ 404
     (.obj [("valid", .bool false)]) (by decide) (by decide)⟩

/-- C7: for every transport failure or JSON parse failure, the output text
is the serialization of a JSON object with an `error` key whose string
value contains the underlying failure message, and the output is styled as
error. -/
theorem submit_failure_renders_error_json (apiKey email msg : String)
    (st : DocsState) (net : FetchOutcome) (hk : apiKey ≠ "") (he : email ≠ "")
    (hnet : net = .jsonError msg ∨ net = .networkError msg) :
    ∃ v : String,
      (submitHandler apiKey email st net).state.outputText =
        stringify (.obj [("error", .str v)]) ∧
      (∃ pre post : String, v = pre ++ msg ++ post) ∧
      (submitHandler apiKey email st net).state.outputCls = dangerCls := by
  have hcond : ¬(apiKey = "" ∨ email = "") := by
    rintro (h | h) <;> [exact hk h; exact he h]
  refine ⟨"Request failed: " ++ msg, ?_, ⟨"Request failed: ", "", by simp⟩, ?_⟩ <;>
    rcases hnet with rfl | rfl <;> simp [submitHandler, hcond]

/-- Witness for C7 at a concrete network rejection. -/
theorem submit_failure_renders_error_json_witness :
    ("k" ≠ "" ∧ "a@b.co" ≠ "" ∧
      (FetchOutcome.networkError "Failed to fetch" = .jsonError "Failed to fetch" ∨
       FetchOutcome.networkError "Failed to fetch" = .networkError "Failed to fetch")) ∧
    ∃ v : String,
      (submitHandler "k" "a@b.co" ⟨"", "", "none"⟩
          (.networkError "Failed to fetch")).state.outputText =
        stringify (.obj [("error", .str v)]) ∧
      (∃ pre post : String, v = pre ++ "Failed to fetch" ++ post) ∧
      (submitHandler "k" "a@b.co" ⟨"", "", "none"⟩
          (.networkError "Failed to fetch")).state.outputCls = dangerCls :=
  ⟨⟨by decide, by decide, Or.inr rfl⟩,
   submit_failure_renders_error_json "k" "a@b.co" "Failed to fetch" ⟨"", "", "none"⟩
     (.networkError "Failed to fetch") (by decide) (by decide) (Or.inr rfl)⟩

/-! ## Claims about the documentation search -/

/-- `listIncludes` decides contiguous-substring containment. -/
theorem listIncludes_iff (needle : List Char) :
    ∀ hay : List Char, listIncludes needle hay = true ↔ needle <:+: hay := by
  intro hay
  induction hay with
  | nil =>
    simp only [listIncludes, List.isEmpty_iff, List.infix_nil]
  | cons c cs ih =>
    simp only [listIncludes, Bool.or_eq_true, List.isPrefixOf_iff_prefix, ih,
      List.infix_cons_iff]

/-- Lower-casing preserves emptiness. -/
theorem strLower_eq_empty_iff (s : String) : strLower s = "" ↔ s = "" := by
  constructor
  · intro h
    have hdata : (s.data.map Char.toLower) = [] := by
      have := congrArg String.data h
      simpa [strLower] using this
    have : s.data = [] := List.map_eq_nil_iff.mp hdata
    exact String.ext (by simpa using this)
  · intro h
    subst h
    rfl

/-- C8: after every input event on the search field, each documentation
section keeps its text and is displayed as `block` exactly when the term
is empty or the lower-cased section text contains the lower-cased term as
a substring, and as `none` otherwise. -/
theorem search_shows_matching_sections (term : String) (secs : List DocSection) :
    List.Forall₂ (fun s s' : DocSection =>
      s'.text = s.text ∧
      (s'.display = "block" ↔
        (term = "" ∨ (strLower term).data <:+: (strLower s.text).data)) ∧
      (s'.display = "none" ↔
        ¬(term = "" ∨ (strLower term).data <:+: (strLower s.text).data)))
      secs (searchHandler term secs) := by
  rw [searchHandler, List.forall₂_map_right_iff, List.forall₂_same]
  intro s _
  by_cases hmatch : term = "" ∨ (strLower term).data <:+: (strLower s.text).data
  · have hcond :
        (strIncludes (strLower s.text) (strLower term) || strLower term == "") = true := by
      simp only [Bool.or_eq_true]
      rcases hmatch with h | h
      · right
        subst h
        decide
      · left
        simp [strIncludes, (listIncludes_iff _ _).mpr h]
    simp [hcond, hmatch]
  · have h1 : ¬ term = "" := fun h => hmatch (Or.inl h)
    have h2 : ¬ (strLower term).data <:+: (strLower s.text).data :=
      fun h => hmatch (Or.inr h)
    have hcond :
        (strIncludes (strLower s.text) (strLower term) || strLower term == "") = false := by
      have hne : (strLower term == "") = false := by
        simp [strLower_eq_empty_iff, h1]
      have hni : strIncludes (strLower s.text) (strLower term) = false := by
        cases h : strIncludes (strLower s.text) (strLower term)
        · rfl
        · exact absurd ((listIncludes_iff _ _).mp h) h2
      simp [hne, hni]
    simp [hcond, hmatch]

/-! ## Claim about the copy button -/

/-- Membership after `classList.add`. -/
theorem mem_classAdd (cs : List String) (x c : String) :
    c ∈ classAdd cs x ↔ c ∈ cs ∨ c = x := by
  rw [classAdd]
  by_cases hx : x ∈ cs
  · simp only [if_pos hx]
    constructor
    · exact Or.inl
    · rintro (h | rfl) <;> assumption
  · simp [if_neg hx]

/-- Membership after `classList.remove`. -/
theorem mem_classRemove (cs : List String) (x c : String) :
    c ∈ classRemove cs x ↔ c ∈ cs ∧ c ≠ x := by
  simp [classRemove]

/-- C9: after a successful clipboard write, the control shows the
confirmation icon and success class immediately; at every instant before
2000 ms it still shows the confirmation icon (never the original one), and
from 2000 ms on it shows the original icon again with its original class
set. -/
theorem copy_confirms_then_reverts (b : BtnState)
    (hicon : b.innerHTML ≠ checkIcon)
    (hsec : secondaryBtnCls ∈ b.classes) (hsuc : successBtnCls ∉ b.classes) :
    ((stateAt (copyClickSuccess b) 0).innerHTML = checkIcon ∧
      successBtnCls ∈ (stateAt (copyClickSuccess b) 0).classes ∧
      secondaryBtnCls ∉ (stateAt (copyClickSuccess b) 0).classes) ∧
    (∀ t, t < 2000 →
      (stateAt (copyClickSuccess b) t).innerHTML = checkIcon ∧
      (stateAt (copyClickSuccess b) t).innerHTML ≠ b.innerHTML) ∧
    (∀ t, 2000 ≤ t →
      (stateAt (copyClickSuccess b) t).innerHTML = b.innerHTML ∧
      ∀ c, (c ∈ (stateAt (copyClickSuccess b) t).classes ↔ c ∈ b.classes)) := by
  have hdistinct : secondaryBtnCls ≠ successBtnCls := by decide
  refine ⟨?_, ?_, ?_⟩
  · have h0 : stateAt (copyClickSuccess b) 0 = (copyClickSuccess b).1 := by
      simp [stateAt, copyClickSuccess]
    rw [h0]
    refine ⟨rfl, ?_, ?_⟩
    · simp [copyClickSuccess, mem_classAdd]
    · simp only [copyClickSuccess, mem_classAdd, mem_classRemove]
      rintro (⟨_, h⟩ | h)
      · exact h rfl
      · exact hdistinct h
  · intro t ht
    have h0 : stateAt (copyClickSuccess b) t = (copyClickSuccess b).1 := by
      simp [stateAt, copyClickSuccess, ht]
    rw [h0]
    exact ⟨rfl, fun h => hicon h.symm⟩
  · intro t ht
    have h0 : stateAt (copyClickSuccess b) t =
        (copyClickSuccess b).2.run (copyClickSuccess b).1 := by
      have : ¬ t < 2000 := not_lt.mpr ht
      simp [stateAt, copyClickSuccess, this]
    rw [h0]
    refine ⟨rfl, fun c => ?_⟩
    simp only [copyClickSuccess, mem_classAdd, mem_classRemove]
    constructor
    · rintro (⟨(⟨hc, _⟩ | rfl), _⟩ | rfl)
      · exact hc
      · exact absurd rfl (by assumption)
      · exact hsec
    · intro hc
      by_cases heq : c = secondaryBtnCls
      · exact Or.inr heq
      · exact Or.inl ⟨Or.inl ⟨hc, heq⟩, fun h => hsuc (h ▸ hc)⟩

/-- Witness for C9 at the freshly initialized button state. -/
theorem copy_confirms_then_reverts_witness :
    (copyIcon ≠ checkIcon ∧
      secondaryBtnCls ∈ ["btn", "btn-sm", secondaryBtnCls] ∧
      successBtnCls ∉ ["btn", "btn-sm", secondaryBtnCls]) ∧
    (((stateAt (copyClickSuccess ⟨copyIcon, ["btn", "btn-sm", secondaryBtnCls]⟩) 0).innerHTML = checkIcon ∧
      successBtnCls ∈ (stateAt (copyClickSuccess ⟨copyIcon, ["btn", "btn-sm", secondaryBtnCls]⟩) 0).classes ∧
      secondaryBtnCls ∉ (stateAt (copyClickSuccess ⟨copyIcon, ["btn", "btn-sm", secondaryBtnCls]⟩) 0).classes) ∧
    (∀ t, t < 2000 →
      (stateAt (copyClickSuccess ⟨copyIcon, ["btn", "btn-sm", secondaryBtnCls]⟩) t).innerHTML = checkIcon ∧
      (stateAt (copyClickSuccess ⟨copyIcon, ["btn", "btn-sm", secondaryBtnCls]⟩) t).innerHTML ≠
        (BtnState.mk copyIcon ["btn", "btn-sm", secondaryBtnCls]).innerHTML) ∧
    (∀ t, 2000 ≤ t →
      (stateAt (copyClickSuccess ⟨copyIcon, ["btn", "btn-sm", secondaryBtnCls]⟩) t).innerHTML =
        (BtnState.mk copyIcon ["btn", "btn-sm", secondaryBtnCls]).innerHTML ∧
      ∀ c, (c ∈ (stateAt (copyClickSuccess ⟨copyIcon, ["btn", "btn-sm", secondaryBtnCls]⟩) t).classes ↔
        c ∈ ["btn", "btn-sm", secondaryBtnCls]))) :=
  ⟨⟨by decide, by decide, by decide⟩,
   copy_confirms_then_reverts ⟨copyIcon, ["btn", "btn-sm", secondaryBtnCls]⟩
     (by decide) (by decide) (by decide)⟩

/-! ## Claims about the section navigator -/

/-- Clearing pass of `updateActiveNavLink`: afterwards no navigation item
is active. -/
theorem countActiveNav_clear (doc : List Elem) :
    countActiveNav (doc.map clearIfNav) = 0 := by
  induction doc with
  | nil => rfl
  | cons e l ih =>
    have hcond : ((clearIfNav e).isNavItem && (clearIfNav e).active) = false := by
      by_cases hn : e.isNavItem <;> simp [clearIfNav, hn]
    simp only [List.map_cons, countActiveNav, List.filter_cons, hcond] at ih ⊢
    simpa using ih

/-- Adding `active` to one element raises the active count by at most one. -/
theorem countActiveNav_setActiveAt :
    ∀ (l : List Elem) (i : Nat),
      countActiveNav (setActiveAt l i) ≤ countActiveNav l + 1 := by
  intro l
  induction l with
  | nil => intro i; simp [setActiveAt, countActiveNav]
  | cons e rest ih =>
    intro i
    cases i with
    | zero =>
      by_cases hn : e.isNavItem <;> by_cases ha : e.active <;>
        simp [setActiveAt, countActiveNav, List.filter_cons, hn, ha]
    | succ n =>
      have hih := ih n
      simp only [setActiveAt, countActiveNav, List.filter_cons] at hih ⊢
      by_cases hc : (e.isNavItem && e.active) = true <;> simp [hc] <;> omega

/-- Position-wise description of `setActiveAt`. -/
theorem setActiveAt_get? :
    ∀ (l : List Elem) (i j : Nat),
      (setActiveAt l i).get? j =
        if j = i then (l.get? j).map (fun e => { e with active := true })
        else l.get? j := by
  intro l
  induction l with
  | nil => intro i j; simp [setActiveAt]
  | cons e rest ih =>
    intro i j
    cases i with
    | zero =>
      cases j with
      | zero => simp [setActiveAt]
      | succ m => simp [setActiveAt]
    | succ n =>
      cases j with
      | zero => simp [setActiveAt]
      | succ m =>
        simp only [setActiveAt, List.get?_cons_succ, ih n m]
        by_cases h : m = n <;> simp [h]

/-- The per-element class rewrite of the scroll handler, expressed as a
filter condition. -/
theorem countActiveNav_scroll (doc : List Elem) (cur : String) :
    countActiveNav (doc.map (scrollUpdate cur)) =
      countNavWithHref doc ("#" ++ cur) := by
  induction doc with
  | nil => rfl
  | cons e l ih =>
    have hcond : ((scrollUpdate cur e).isNavItem && (scrollUpdate cur e).active) =
        (e.isNavItem && e.href == some ("#" ++ cur)) := by
      by_cases hn : e.isNavItem <;> simp [scrollUpdate, hn]
    simp only [List.map_cons, countActiveNav, countNavWithHref, List.filter_cons,
      hcond] at ih ⊢
    by_cases hc : (e.isNavItem && e.href == some ("#" ++ cur)) = true <;>
      simp [hc, ih]

/-- In a list of elements with pairwise distinct hrefs, at most one
element carries any given href. -/
theorem filter_href_le_one (h : String) :
    ∀ l : List Elem, l.Pairwise (fun a b => a.href ≠ b.href) →
      (l.filter (fun e => e.href == some h)).length ≤ 1 := by
  intro l
  induction l with
  | nil => intro _; simp
  | cons e rest ih =>
    intro hpw
    obtain ⟨hhead, htail⟩ := List.pairwise_cons.mp hpw
    by_cases hc : (e.href == some h) = true
    · have hrest : rest.filter (fun e => e.href == some h) = [] := by
        rw [List.filter_eq_nil_iff]
        intro b hb
        have : e.href ≠ b.href := hhead b hb
        simp only [beq_iff_eq] at hc ⊢
        rw [hc] at this
        exact fun hbh => this hbh.symm
      simp [List.filter_cons, hc, hrest]
    · simp only [List.filter_cons, hc]
      simpa using ih htail

/-- Pairwise distinct hrefs among navigation items bound
`countNavWithHref` by one. -/
theorem countNavWithHref_le_one (doc : List Elem)
    (hpw : (doc.filter (fun e => e.isNavItem)).Pairwise (fun a b => a.href ≠ b.href))
    (h : String) : countNavWithHref doc h ≤ 1 := by
  have heq : doc.filter (fun e => e.isNavItem && e.href == some h) =
      (doc.filter (fun e => e.isNavItem)).filter (fun e => e.href == some h) := by
    rw [List.filter_filter]
    exact List.filter_congr (fun a _ => Bool.and_comm a.isNavItem (a.href == some h))
  rw [countNavWithHref, heq]
  exact filter_href_le_one h _ hpw

/-- C3 counterexample: with two navigation items sharing the href `#a`,
one run of the scroll handler leaves two items active at once. -/
theorem scroll_two_active_counterexample :
    ¬ countActiveNav (updateActiveNavOnScroll
        [⟨"", some "#a", true, false⟩, ⟨"", some "#a", true, false⟩]
        [⟨"a", 50⟩]) ≤ 1 := by decide

/-- C3 (amended): provided no two navigation items share an href, after a
run of the click handler on a link whose fragment resolves, and after any
run of the scroll handler, at most one navigation item is active. -/
theorem nav_active_at_most_one (doc : List Elem) (i : Nat) (sections : List Sect)
    (e : Elem) (h : String)
    (hget : doc.get? i = some e) (hhref : e.href = some h)
    (htid : h.drop 1 ≠ "")
    (htarget : doc.any (fun el => el.id == h.drop 1) = true)
    (hpw : (doc.filter (fun e => e.isNavItem)).Pairwise (fun a b => a.href ≠ b.href)) :
    countActiveNav (clickHandler doc i) ≤ 1 ∧
    countActiveNav (updateActiveNavOnScroll doc sections) ≤ 1 := by
  constructor
  · have hclick : clickHandler doc i = updateActiveNavLink doc i := by
      rw [clickHandler, hget]
      simp only [hhref]
      rw [if_pos ⟨htid, htarget⟩]
    rw [hclick, updateActiveNavLink]
    calc countActiveNav (setActiveAt (doc.map clearIfNav) i)
        ≤ countActiveNav (doc.map clearIfNav) + 1 := countActiveNav_setActiveAt _ i
      _ = 1 := by rw [countActiveNav_clear]
  · rw [updateActiveNavOnScroll, countActiveNav_scroll]
    exact countNavWithHref_le_one doc hpw _

/-- Witness for C3 at a concrete two-element page. -/
theorem nav_active_at_most_one_witness :
    (([⟨"a", none, false, false⟩, ⟨"", some "#a", true, false⟩] :
        List Elem).get? 1 = some ⟨"", some "#a", true, false⟩ ∧
      ("#a".drop 1 ≠ "") ∧
      ([⟨"a", none, false, false⟩, ⟨"", some "#a", true, false⟩] :
        List Elem).any (fun el => el.id == "#a".drop 1) = true) ∧
    (countActiveNav (clickHandler
        [⟨"a", none, false, false⟩, ⟨"", some "#a", true, false⟩] 1) ≤ 1 ∧
    countActiveNav (updateActiveNavOnScroll
        [⟨"a", none, false, false⟩, ⟨"", some "#a", true, false⟩] [⟨"a", 50⟩]) ≤ 1) :=
  ⟨⟨by decide, by decide, by decide⟩,
   nav_active_at_most_one
     [⟨"a", none, false, false⟩, ⟨"", some "#a", true, false⟩] 1 [⟨"a", 50⟩]
     ⟨"", some "#a", true, false⟩ "#a" (by decide) rfl (by decide) (by decide)
     (by decide)⟩

/-- C4 counterexample: two in-page anchor links that are not navigation
items; the first is already active, and clicking the second (whose
fragment resolves to the element with id `a`) leaves both links active. -/
theorem click_two_links_active_counterexample :
    (([⟨"a", none, false, false⟩, ⟨"", some "#a", false, true⟩,
        ⟨"", some "#a", false, false⟩] : List Elem).any
      (fun el => el.id == "#a".drop 1) = true) ∧
    countActiveLinks (clickHandler
      [⟨"a", none, false, false⟩, ⟨"", some "#a", false, true⟩,
       ⟨"", some "#a", false, false⟩] 2) = 2 := by decide

/-- C4 (amended): clicking an in-page anchor link that is itself a
navigation item, on a page where only navigation items carry the active
state, leaves the clicked link as the unique active element: after the
click, an element is active exactly when it sits at the clicked index. -/
theorem click_marks_clicked_sole_active (doc : List Elem) (i : Nat) (e : Elem)
    (h : String)
    (hget : doc.get? i = some e) (hhref : e.href = some h)
    (htid : h.drop 1 ≠ "")
    (htarget : doc.any (fun el => el.id == h.drop 1) = true)
    (hnavonly : ∀ el ∈ doc, el.active = true → el.isNavItem = true) :
    ∀ j el, (clickHandler doc i).get? j = some el → (el.active = true ↔ j = i) := by
  have hclick : clickHandler doc i = updateActiveNavLink doc i := by
    rw [clickHandler, hget]
    simp only [hhref]
    rw [if_pos ⟨htid, htarget⟩]
  intro j el hel
  rw [hclick, updateActiveNavLink, setActiveAt_get?] at hel
  by_cases hji : j = i
  · subst hji
    rw [if_pos rfl, List.get?_map, hget] at hel
    simp only [Option.map_some', Option.some.injEq] at hel
    subst hel
    simp
  · rw [if_neg hji, List.get?_map] at hel
    cases hg : doc.get? j with
    | none => rw [hg] at hel; exact absurd hel (by simp)
    | some e0 =>
      rw [hg] at hel
      simp only [Option.map_some', Option.some.injEq] at hel
      subst hel
      have hmem : e0 ∈ doc := List.get?_mem hg
      constructor
      · intro hact
        exfalso
        by_cases hn : e0.isNavItem
        · simp [clearIfNav, hn] at hact
        · simp only [clearIfNav, if_neg hn] at hact
          exact hn (hnavonly e0 hmem hact)
      · intro hcontra
        exact absurd hcontra hji

/-- Witness for C4 at a concrete page: the clicked nav link is the sole
active element afterwards. -/
theorem click_marks_clicked_sole_active_witness :
    (([⟨"a", none, false, false⟩, ⟨"", some "#a", true, false⟩,
        ⟨"", some "#b", true, true⟩] : List Elem).get? 1 =
      some ⟨"", some "#a", true, false⟩ ∧
      (clickHandler [⟨"a", none, false, false⟩, ⟨"", some "#a", true, false⟩,
        ⟨"", some "#b", true, true⟩] 1).get? 1 =
        some ⟨"", some "#a", true, true⟩) ∧
    ((Elem.mk "" (some "#a") true true).active = true ↔ (1 : Nat) = 1) :=
  ⟨⟨by decide, by decide⟩,
   click_marks_clicked_sole_active
     [⟨"a", none, false, false⟩, ⟨"", some "#a", true, false⟩,
      ⟨"", some "#b", true, true⟩] 1 ⟨"", some "#a", true, false⟩ "#a"
     (by decide) rfl (by decide) (by decide)
     (by decide)
     1 ⟨"", some "#a", true, true⟩ (by decide)⟩

/-- The scan of `currentSection` returns the id of the last qualifying
section, for any seed value. -/
theorem foldl_current_eq_find (sections : List Sect) :
    ∀ init : String,
      sections.foldl (fun cur s => if s.top ≤ 100 then s.id else cur) init =
        (match sections.reverse.find? (fun s => s.top ≤ 100) with
          | some s => s.id
          | none => init) := by
  induction sections with
  | nil => intro _; rfl
  | cons s l ih =>
    intro init
    rw [List.foldl_cons, ih, List.reverse_cons, List.find?_append]
    cases hfind : l.reverse.find? (fun s => decide (s.top ≤ 100)) with
    | some s' => simp [Option.or]
    | none =>
      by_cases hs : s.top ≤ 100 <;> simp [Option.or, List.find?, hs]

/-- `currentSection` agrees with the spec-side latest qualifying section. -/
theorem currentSection_eq_latestQualifying (sections : List Sect) :
    currentSection sections =
      (match latestQualifying sections with
        | some s => s.id
        | none => "") :=
  foldl_current_eq_find sections ""

/-- C5: whenever some section qualifies (top edge within 100 px of the
viewport top or above), the current section is the latest qualifying one
in document order, and after the scroll handler a navigation item is
active exactly when its href is `'#' +` that section's id. -/
theorem scroll_marks_latest_qualifying (doc : List Elem) (sections : List Sect)
    (hq : ∃ s ∈ sections, s.top ≤ 100) :
    ∃ cur : Sect,
      latestQualifying sections = some cur ∧
      currentSection sections = cur.id ∧
      ∀ e ∈ updateActiveNavOnScroll doc sections,
        e.isNavItem = true → (e.active = true ↔ e.href = some ("#" ++ cur.id)) := by
  have hsome : (latestQualifying sections).isSome := by
    rw [latestQualifying, List.find?_isSome]
    obtain ⟨s, hs, hle⟩ := hq
    exact ⟨s, List.mem_reverse.mpr hs, by simpa using hle⟩
  obtain ⟨cur, hcur⟩ := Option.isSome_iff_exists.mp hsome
  have hcs : currentSection sections = cur.id := by
    rw [currentSection_eq_latestQualifying, hcur]
  refine ⟨cur, hcur, hcs, ?_⟩
  intro e he hnav
  rw [updateActiveNavOnScroll] at he
  obtain ⟨e0, _, rfl⟩ := List.mem_map.mp he
  by_cases hn : e0.isNavItem
  · simp [scrollUpdate, hn, hcs]
  · simp only [scrollUpdate, if_neg hn] at hnav
    exact absurd hnav hn

/-- Witness for C5 with one qualifying section and one matching nav link. -/
theorem scroll_marks_latest_qualifying_witness :
    (∃ s ∈ ([⟨"a", 50⟩] : List Sect), s.top ≤ 100) ∧
    ∃ cur : Sect,
      latestQualifying [⟨"a", 50⟩] = some cur ∧
      currentSection [⟨"a", 50⟩] = cur.id ∧
      ∀ e ∈ updateActiveNavOnScroll
          [⟨"", some "#a", true, false⟩] [⟨"a", 50⟩],
        e.isNavItem = true → (e.active = true ↔ e.href = some ("#" ++ cur.id)) :=
  ⟨⟨⟨"a", 50⟩, by decide, by decide⟩,
   scroll_marks_latest_qualifying [⟨"", some "#a", true, false⟩] [⟨"a", 50⟩]
     ⟨⟨"a", 50⟩, by decide, by decide⟩⟩

/-! ## Claims about `isValidEmail` -/

/-- Semantics of the backtracking `cls+ k` matcher: it succeeds exactly on
splits into a nonempty all-`cls` block followed by a suffix accepted by
`k`. -/
theorem plusThen_iff (cls : Char → Bool) (k : List Char → Bool) :
    ∀ l : List Char, plusThen cls k l = true ↔
      ∃ p q, l = p ++ q ∧ p ≠ [] ∧ (∀ c ∈ p, cls c = true) ∧ k q = true := by
  intro l
  induction l with
  | nil =>
    constructor
    · intro hcontra
      simp [plusThen] at hcontra
    · rintro ⟨p, q, hpq, hp, -, -⟩
      exact absurd (List.append_eq_nil.mp hpq.symm).1 hp
  | cons c cs ih =>
    constructor
    · intro hmatch
      simp only [plusThen, Bool.and_eq_true, Bool.or_eq_true] at hmatch
      obtain ⟨hc, hk | hrec⟩ := hmatch
      · exact ⟨[c], cs, rfl, by simp, by simp [hc], hk⟩
      · obtain ⟨p, q, rfl, hp, hcls, hkq⟩ := ih.mp hrec
        refine ⟨c :: p, q, rfl, by simp, ?_, hkq⟩
        intro x hx
        rcases List.mem_cons.mp hx with rfl | hx
        · exact hc
        · exact hcls x hx
    · rintro ⟨p, q, heq, hp, hcls, hkq⟩
      cases p with
      | nil => exact absurd rfl hp
      | cons d p2 =>
        rw [List.cons_append] at heq
        injection heq with h1 h2
        subst h1
        subst h2
        simp only [plusThen, Bool.and_eq_true, Bool.or_eq_true]
        refine ⟨hcls c (List.mem_cons_self c p2), ?_⟩
        cases p2 with
        | nil => exact Or.inl (by simpa using hkq)
        | cons x p3 =>
          refine Or.inr (ih.mpr ⟨x :: p3, q, rfl, by simp, ?_, hkq⟩)
          intro y hy
          exact hcls y (List.mem_cons_of_mem c hy)

/-- Semantics of the trailing block `[^\s@]+$`. -/
theorem matchTail2_iff (l : List Char) :
    matchTail2 l = true ↔ l ≠ [] ∧ ∀ c ∈ l, emailChar c = true := by
  rw [matchTail2, plusThen_iff]
  constructor
  · rintro ⟨p, q, rfl, hp, hcls, hq⟩
    have hq2 : q = [] := by simpa [List.isEmpty_iff] using hq
    subst hq2
    refine ⟨by simpa using hp, by simpa using hcls⟩
  · rintro ⟨hne, hall⟩
    exact ⟨l, [], by simp, hne, hall, by simp⟩

/-- Semantics of the suffix `\.[^\s@]+$`. -/
theorem matchDotTail_iff (l : List Char) :
    matchDotTail l = true ↔
      ∃ t, l = '.' :: t ∧ t ≠ [] ∧ ∀ c ∈ t, emailChar c = true := by
  cases l with
  | nil => simp [matchDotTail]
  | cons c r =>
    simp only [matchDotTail, Bool.and_eq_true, beq_iff_eq]
    constructor
    · rintro ⟨rfl, hmt⟩
      obtain ⟨hne, hall⟩ := (matchTail2_iff r).mp hmt
      exact ⟨r, rfl, hne, hall⟩
    · rintro ⟨t, heq, hne, hall⟩
      injection heq with h1 h2
      subst h1
      subst h2
      exact ⟨rfl, (matchTail2_iff r).mpr ⟨hne, hall⟩⟩

/-- Semantics of the domain pattern `[^\s@]+\.[^\s@]+$`. -/
theorem matchDomain_iff (l : List Char) :
    matchDomain l = true ↔
      ∃ b t, l = b ++ '.' :: t ∧ b ≠ [] ∧ t ≠ [] ∧
        (∀ c ∈ b, emailChar c = true) ∧ (∀ c ∈ t, emailChar c = true) := by
  rw [matchDomain, plusThen_iff]
  constructor
  · rintro ⟨p, q, rfl, hp, hcls, hq⟩
    obtain ⟨t, rfl, hne, hall⟩ := (matchDotTail_iff q).mp hq
    exact ⟨p, t, rfl, hp, hne, hcls, hall⟩
  · rintro ⟨b, t, rfl, hb, ht, hballs, htall⟩
    exact ⟨b, '.' :: t, rfl, hb, hballs,
      (matchDotTail_iff _).mpr ⟨t, rfl, ht, htall⟩⟩

/-- Semantics of the suffix `@[^\s@]+\.[^\s@]+$`. -/
theorem matchAtDomain_iff (l : List Char) :
    matchAtDomain l = true ↔ ∃ r, l = '@' :: r ∧ matchDomain r = true := by
  cases l with
  | nil => simp [matchAtDomain]
  | cons c r =>
    simp only [matchAtDomain, Bool.and_eq_true, beq_iff_eq]
    constructor
    · rintro ⟨rfl, hd⟩
      exact ⟨r, rfl, hd⟩
    · rintro ⟨r2, heq, hd⟩
      injection heq with h1 h2
      subst h1
      subst h2
      exact ⟨rfl, hd⟩

/-- Full semantics of the regular expression `^[^\s@]+@[^\s@]+\.[^\s@]+$`:
the string splits as `a@b.t` with `a`, `b`, `t` nonempty and free of
whitespace and `@`. -/
theorem isValidEmail_iff (s : String) :
    isValidEmail s = true ↔
      ∃ a b t : List Char,
        s.data = a ++ '@' :: (b ++ '.' :: t) ∧ a ≠ [] ∧ b ≠ [] ∧ t ≠ [] ∧
        (∀ c ∈ a, emailChar c = true) ∧ (∀ c ∈ b, emailChar c = true) ∧
        (∀ c ∈ t, emailChar c = true) := by
  rw [isValidEmail, plusThen_iff]
  constructor
  · rintro ⟨p, q, heq, hp, hcls, hq⟩
    obtain ⟨r, rfl, hdom⟩ := (matchAtDomain_iff q).mp hq
    obtain ⟨b, t, rfl, hb, ht, hball, htall⟩ := (matchDomain_iff r).mp hdom
    exact ⟨p, b, t, heq, hp, hb, ht, hcls, hball, htall⟩
  · rintro ⟨a, b, t, heq, ha, hb, ht, haall, hball, htall⟩
    refine ⟨a, '@' :: (b ++ '.' :: t), heq, ha, haall, ?_⟩
    exact (matchAtDomain_iff _).mpr ⟨b ++ '.' :: t, rfl,
      (matchDomain_iff _).mpr ⟨b, t, rfl, hb, ht, hball, htall⟩⟩

/-- C2 counterexample: `"a@b."` satisfies the claimed acceptance condition
(nonempty local part, domain containing a dot, no whitespace and no extra
`@`), yet `isValidEmail` rejects it, because the regular expression
requires at least one domain character after the dot. -/
theorem isValidEmail_claim_counterexample :
    specEmailPred "a@b." ∧ isValidEmail "a@b." = false := by
  constructor
  · refine ⟨['a'], ['b', '.'], by decide, by decide, by decide,
      by decide, by decide, by decide⟩
  · decide

/-- C2 (amended): the three documented examples hold, and in general
`isValidEmail` accepts a string exactly when it has the shape
`local@domain` with a nonempty local part, no whitespace or further `@`
anywhere, and a dot in the domain with at least one domain character
before it and one after it. -/
theorem isValidEmail_characterization :
    isValidEmail "a@b.co" = true ∧
    isValidEmail "not-an-email" = false ∧
    isValidEmail "a@b" = false ∧
    ∀ s : String, isValidEmail s = true ↔
      ∃ a b t : List Char,
        s.data = a ++ '@' :: (b ++ '.' :: t) ∧ a ≠ [] ∧ b ≠ [] ∧ t ≠ [] ∧
        (∀ c ∈ a, emailChar c = true) ∧ (∀ c ∈ b, emailChar c = true) ∧
        (∀ c ∈ t, emailChar c = true) :=
  ⟨by decide, by decide, by decide, isValidEmail_iff⟩

end Docs
